import Mathlib

/-!
Verification development for the go-nitro off-chain protocol engine.

Shallow embedding of the parts of the repository exercised by the checked
properties: the direct-fund objective state machine
(protocols/directfund/directfund.go), the voucher manager observable
behaviour (payments, pinned by TestPaymentManager), the two-party ledger
proposal application (consensus_channel), and the engine completion and
rejection handlers (client/engine).

Addresses, destinations and assets are abstracted to natural numbers;
big.Int amounts are Lean Int; Go maps keyed by asset or id are association
lists; a Go runtime fault (such as a nil map entry in amountToDeposit) is
the value none of an Option result.
-/

abbrev Address := Nat

abbrev Destination := Nat

abbrev Asset := Nat

/-- Funds: source types.Funds, a map from asset address to big.Int amount,
embedded as an association list. -/
abbrev Funds := List (Asset × Int)

/-- Association-list lookup keyed by a natural number, mirroring a Go map read. -/
def lookupKey {α : Type} : List (Nat × α) → Nat → Option α
  | [], _ => none
  | (k, v) :: rest, t => if k = t then some v else lookupKey rest t

/-- Association-list write, mirroring a Go map update: the key is bound to the
new value and any previous binding is dropped. -/
def upsertKey {α : Type} (l : List (Nat × α)) (t : Nat) (v : α) : List (Nat × α) :=
  (t, v) :: l.filter (fun p => p.1 ≠ t)

/-- Modelled from the spec: types.Funds.IsNonZero, absent from src; true
exactly when some asset carries a strictly positive amount (in the spec data
model Funds map assets to non-negative big integers, and upstream the
comparison is a big.Int Cmp against zero equal to one). -/
def fundsIsNonZero (f : Funds) : Bool :=
  f.any (fun p => 0 < p.2)

/-- Source protocols.ObjectiveStatus. -/
inductive ObjectiveStatus
  | Unapproved
  | Approved
  | Rejected
  | Completed
deriving DecidableEq

/-- Source protocols.WaitingFor, a string in the source; the five constants of
the direct-fund protocol are the constructors. The constructor named nothing
corresponds to the string WaitingForNothing compared against by the engine. -/
inductive WaitingFor
  | completePrefund
  | myTurnToFund
  | completeFunding
  | completePostFund
  | nothing
deriving DecidableEq

/-- Payload discriminator of an outbound peer message. -/
inductive MsgPayload
  | signedState (turnNum : Nat)
  | rejection
deriving DecidableEq

/-- Outbound peer message: recipient address, objective id (the associated
channel id, the string prefix of the source id being implied by the protocol),
and payload. -/
structure Message where
  To : Address
  objectiveId : Nat
  payload : MsgPayload
deriving DecidableEq

/-- Source protocols.ChainTransaction restricted to the deposit kind, the only
kind the direct-fund objective emits. -/
structure ChainTransaction where
  channelId : Destination
  deposit : Funds
deriving DecidableEq

/-- Guarantee of a two-party ledger outcome.
Modelled from the spec: consensus_channel.Guarantee, absent from src; an
allocation reserving amount for a target channel between a left and a right
destination. -/
structure Guarantee where
  amount : Int
  target : Destination
  left : Destination
  right : Destination
deriving DecidableEq

/-- Ledger proposal.
Modelled from the spec: consensus_channel.Proposal, absent from src; one of
Add (a guarantee funded by leftDeposit from the left balance) or Remove
(a guarantee released with leftAmount returned to the left balance). -/
inductive Proposal
  | add (g : Guarantee) (leftDeposit : Int)
  | remove (target : Destination) (leftAmount : Int)
deriving DecidableEq

/-- Source protocols.SideEffects: outbound messages, chain transactions and
ledger proposals declared by a crank. -/
structure SideEffects where
  messagesToSend : List Message
  transactionsToSubmit : List ChainTransaction
  proposalsToProcess : List Proposal
deriving DecidableEq

/-- Channel.
Modelled from the spec: channel.Channel, absent from src; the fields the
direct-fund objective observes. The signed prefund (turn 0) and postfund
(turn 1) states are kept as the lists of participant indices that signed
them, and onChainFunding is the recorded holdings, updated only by chain
events. -/
structure Channel where
  id : Destination
  myIndex : Nat
  participants : List Address
  prefundSigners : List Nat
  postfundSigners : List Nat
  onChainFunding : Funds
deriving DecidableEq

/-- Modelled from the spec: Channel.PreFundSignedByMe, true when my signature
is on the turn-0 state. -/
def Channel.prefundSignedByMe (c : Channel) : Bool :=
  decide (c.myIndex ∈ c.prefundSigners)

/-- Modelled from the spec: Channel.PreFundComplete, true when every
participant has signed the turn-0 state. -/
def Channel.prefundComplete (c : Channel) : Bool :=
  decide (∀ i < c.participants.length, i ∈ c.prefundSigners)

/-- Modelled from the spec: Channel.PostFundSignedByMe. -/
def Channel.postfundSignedByMe (c : Channel) : Bool :=
  decide (c.myIndex ∈ c.postfundSigners)

/-- Modelled from the spec: Channel.PostFundComplete. -/
def Channel.postfundComplete (c : Channel) : Bool :=
  decide (∀ i < c.participants.length, i ∈ c.postfundSigners)

/-- Modelled from the spec: Channel.SignAndAddPrefund: signs the stored turn-0
state with my key and merges the signature. The channel always holds a turn-0
state here, so signing succeeds. -/
def Channel.signAndAddPrefund (c : Channel) : Channel :=
  { c with prefundSigners := c.myIndex :: c.prefundSigners }

/-- Modelled from the spec: Channel.SignAndAddPostfund. -/
def Channel.signAndAddPostfund (c : Channel) : Channel :=
  { c with postfundSigners := c.myIndex :: c.postfundSigners }

/-- Modelled from the spec: protocols.CreateSignedStateMessages, one message
carrying the freshly signed state per participant other than me. -/
def createSignedStateMessages (c : Channel) (turnNum : Nat) : List Message :=
  ((List.range c.participants.length).filter (fun i => i ≠ c.myIndex)).map
    (fun i => { To := c.participants.getD i 0, objectiveId := c.id,
                payload := MsgPayload.signedState turnNum })

/-- Source directfund.Objective: status, the channel, and the three derived
funding thresholds. -/
structure Objective where
  status : ObjectiveStatus
  C : Channel
  myDepositSafetyThreshold : Funds
  myDepositTarget : Funds
  fullyFundedThreshold : Funds
deriving DecidableEq

/-- Source directfund.Objective.fundingComplete body: for every asset of
fullyFundedThreshold the recorded holding exists and reaches the threshold;
a missing asset yields false. -/
def fundingCompleteFrom : List (Asset × Int) → Funds → Bool
  | [], _ => true
  | (a, threshold) :: rest, h =>
    match lookupKey h a with
    | none => false
    | some chainHolding =>
      if threshold > chainHolding then false else fundingCompleteFrom rest h

/-- Source directfund.Objective.fundingComplete. -/
def Objective.fundingComplete (o : Objective) : Bool :=
  fundingCompleteFrom o.fullyFundedThreshold o.C.onChainFunding

/-- Source directfund.Objective.safeToDeposit body: every asset of
myDepositSafetyThreshold must have a recorded holding (the source otherwise
hits a runtime fault, the none result here) at or above the safety threshold. -/
def safeToDepositFrom : List (Asset × Int) → Funds → Option Bool
  | [], _ => some true
  | (a, safetyThreshold) :: rest, h =>
    match lookupKey h a with
    | none => none
    | some chainHolding =>
      if safetyThreshold > chainHolding then some false
      else safeToDepositFrom rest h

/-- Source directfund.Objective.safeToDeposit. -/
def Objective.safeToDeposit (o : Objective) : Option Bool :=
  safeToDepositFrom o.myDepositSafetyThreshold o.C.onChainFunding

/-- Source directfund.Objective.amountToDeposit body: for each asset of
myDepositTarget, the big.Int difference target minus holding (a missing
holding is a runtime fault, the none result here). The difference is not
clamped at zero. -/
def amountToDepositFrom : List (Asset × Int) → Funds → Option Funds
  | [], _ => some []
  | (a, target) :: rest, h =>
    match lookupKey h a with
    | none => none
    | some holding =>
      match amountToDepositFrom rest h with
      | none => none
      | some deposits => some ((a, target - holding) :: deposits)

/-- Source directfund.Objective.amountToDeposit. -/
def Objective.amountToDeposit (o : Objective) : Option Funds :=
  amountToDepositFrom o.myDepositTarget o.C.onChainFunding

/-- Source directfund errors returned by Crank. -/
inductive DFError
  | notApproved
deriving DecidableEq

/-- The four return values of directfund.Objective.Crank. -/
structure CrankResult where
  updated : Objective
  sideEffects : SideEffects
  waitingFor : WaitingFor
  err : Option DFError
deriving DecidableEq

/-- Source directfund.Objective.Crank. The clone of the receiver is the value
itself in this pure embedding; signing is Channel.signAndAddPrefund and
signAndAddPostfund, which always succeed here, so the sign-error early
returns of the source are not reachable. The outer none models the runtime
fault of amountToDeposit or safeToDeposit on a missing holdings entry. -/
def Objective.crank (o : Objective) : Option CrankResult :=
  if o.status = ObjectiveStatus.Approved then
    let c1 := if o.C.prefundSignedByMe then o.C else o.C.signAndAddPrefund
    let preMsgs : List Message :=
      if o.C.prefundSignedByMe then [] else createSignedStateMessages c1 0
    let o1 : Objective := { o with C := c1 }
    if c1.prefundComplete then
      match o1.amountToDeposit, o1.safeToDeposit with
      | some atd, some std =>
        let fc := o1.fundingComplete
        if !fc && !std then
          some ⟨o1, ⟨preMsgs, [], []⟩, WaitingFor.myTurnToFund, none⟩
        else
          let txs : List ChainTransaction :=
            if !fc && std && fundsIsNonZero atd then [⟨o1.C.id, atd⟩] else []
          if !fc then
            some ⟨o1, ⟨preMsgs, txs, []⟩, WaitingFor.completeFunding, none⟩
          else
            let c2 := if c1.postfundSignedByMe then c1 else c1.signAndAddPostfund
            let postMsgs : List Message :=
              if c1.postfundSignedByMe then [] else createSignedStateMessages c2 1
            let o2 : Objective := { o1 with C := c2 }
            if c2.postfundComplete then
              some ⟨o2, ⟨preMsgs ++ postMsgs, txs, []⟩, WaitingFor.nothing, none⟩
            else
              some ⟨o2, ⟨preMsgs ++ postMsgs, txs, []⟩, WaitingFor.completePostFund, none⟩
      | _, _ => none
    else
      some ⟨o1, ⟨preMsgs, [], []⟩, WaitingFor.completePrefund, none⟩
  else
    some ⟨o, ⟨[], [], []⟩, WaitingFor.nothing, some DFError.notApproved⟩

/-- Allocation of an outcome.
Modelled from the spec: outcome.Allocation, absent from src; destination and
amount (allocation type and metadata do not influence the checked claims). -/
structure Allocation where
  destination : Destination
  amount : Int
deriving DecidableEq

/-- Modelled from the spec: outcome.SingleAssetExit, absent from src. -/
structure SingleAssetExit where
  asset : Asset
  allocations : List Allocation
deriving DecidableEq

/-- Modelled from the spec: outcome.Exit, absent from src. -/
abbrev Exit := List SingleAssetExit

/-- Modelled from the spec: state.State, absent from src; the fixed part and
the variable part observed by the direct-fund objective (appData omitted). -/
structure State where
  chainId : Nat
  participants : List Address
  channelNonce : Nat
  appDefinition : Address
  challengeDuration : Nat
  outcome : Exit
  turnNum : Nat
  isFinal : Bool
deriving DecidableEq

/-- Modelled from the spec: channelId is keccak256 of the fixed part, an
opaque deterministic function of the fixed part, embedded as a pairing. -/
def channelIdOf (s : State) : Destination :=
  Nat.pair s.chainId
    (Nat.pair s.channelNonce
      (Nat.pair s.appDefinition
        (Nat.pair s.challengeDuration (s.participants.foldr Nat.pair 0))))

/-- Modelled from the spec: types.AddressToDestination embeds an address as a
destination. -/
def addressToDestination (a : Address) : Destination := a

/-- Modelled from the spec: channel.New for a turn-0 state: a fresh channel
with the state fixed part, my index, no signatures merged yet and holdings
updated only by chain events afterwards. -/
def Channel.new (s : State) (myIndex : Nat) : Channel :=
  { id := channelIdOf s, myIndex := myIndex, participants := s.participants,
    prefundSigners := [], postfundSigners := [], onChainFunding := [] }

/-- Modelled from the spec: types.Funds.Add, the per-asset sum over the union
of the two key sets. -/
def fundsAdd (a b : Funds) : Funds :=
  a.map (fun p => (p.1, p.2 + (lookupKey b p.1).getD 0)) ++
    b.filter (fun p => (lookupKey a p.1).isNone)

/-- Modelled from the spec: outcome.Exit.TotalAllocated, the per-asset sum of
all allocation amounts. -/
def totalAllocated (e : Exit) : Funds :=
  e.foldl (fun acc sae =>
    fundsAdd acc [(sae.asset, (sae.allocations.map (fun al => al.amount)).sum)]) []

/-- Modelled from the spec: outcome.Exit.TotalAllocatedFor, the per-asset sum
of the amounts allocated to the given destination. -/
def totalAllocatedFor (e : Exit) (dest : Destination) : Funds :=
  e.foldl (fun acc sae =>
    fundsAdd acc
      [(sae.asset,
        ((sae.allocations.filter (fun al => al.destination = dest)).map
          (fun al => al.amount)).sum)]) []

/-- Sum of the allocation amounts strictly before the first allocation to the
given destination. -/
def sumBefore : List Allocation → Destination → Int
  | [], _ => 0
  | al :: rest, dest =>
    if al.destination = dest then 0 else al.amount + sumBefore rest dest

/-- Modelled from the spec: outcome.Exit.DepositSafetyThreshold, the
cumulative deposits of the participants funding before the given destination
(per asset, the amounts before the first allocation to it). -/
def depositSafetyThreshold (e : Exit) (dest : Destination) : Funds :=
  e.map (fun sae => (sae.asset, sumBefore sae.allocations dest))

/-- The first index of the given address in the participant list, mirroring
the lookup loop of directfund.NewObjective. -/
def findIndexOf : List Address → Address → Option Nat
  | [], _ => none
  | x :: rest, a => if x = a then some 0 else (findIndexOf rest a).map (· + 1)

/-- The three error returns of directfund.NewObjective. -/
inductive NewObjectiveErr
  | notPrefundState
  | isFinalState
  | myAddressNotFound
deriving DecidableEq

/-- Source directfund.NewObjective: requires a turn-0, non-final initial
state, requires my address among the participants, then builds the channel
and the three funding thresholds. -/
def NewObjective (preApprove : Bool) (initialState : State) (myAddress : Address) :
    Except NewObjectiveErr Objective :=
  if initialState.turnNum ≠ 0 then Except.error NewObjectiveErr.notPrefundState
  else if initialState.isFinal then Except.error NewObjectiveErr.isFinalState
  else
    match findIndexOf initialState.participants myAddress with
    | none => Except.error NewObjectiveErr.myAddressNotFound
    | some myIndex =>
      let status := if preApprove then ObjectiveStatus.Approved else ObjectiveStatus.Unapproved
      let c := Channel.new initialState myIndex
      let myAllocatedAmount := totalAllocatedFor initialState.outcome (addressToDestination myAddress)
      let safety := depositSafetyThreshold initialState.outcome (addressToDestination myAddress)
      Except.ok
        { status := status, C := c,
          myDepositSafetyThreshold := safety,
          myDepositTarget := fundsAdd safety myAllocatedAmount,
          fullyFundedThreshold := totalAllocated initialState.outcome }

/-- Whether an Except carries a success value. -/
def exceptIsOk {ε α : Type} : Except ε α → Bool
  | Except.ok _ => true
  | Except.error _ => false

/-- Source directfund.jsonObjective: the serialized form of the objective,
with the channel replaced by its id. -/
structure JsonObjective where
  status : ObjectiveStatus
  C : Destination
  myDepositSafetyThreshold : Funds
  myDepositTarget : Funds
  fullyFundedThreshold : Funds
deriving DecidableEq

/-- Source directfund.Objective.MarshalJSON: the serialized record keeps the
status, the three thresholds, and only the id of the channel. -/
def Objective.marshalJSON (o : Objective) : JsonObjective :=
  { status := o.status, C := o.C.id,
    myDepositSafetyThreshold := o.myDepositSafetyThreshold,
    myDepositTarget := o.myDepositTarget,
    fullyFundedThreshold := o.fullyFundedThreshold }

/-- The Go zero value of the channel struct, which UnmarshalJSON starts from. -/
def Channel.zeroValue : Channel :=
  { id := 0, myIndex := 0, participants := [], prefundSigners := [],
    postfundSigners := [], onChainFunding := [] }

/-- Source directfund.Objective.UnmarshalJSON: the channel is a fresh zero
value carrying only the deserialized id. -/
def unmarshalJSON (j : JsonObjective) : Objective :=
  { status := j.status, C := { Channel.zeroValue with id := j.C },
    myDepositSafetyThreshold := j.myDepositSafetyThreshold,
    myDepositTarget := j.myDepositTarget,
    fullyFundedThreshold := j.fullyFundedThreshold }

theorem findIndexOf_isSome (l : List Address) (a : Address) :
    (findIndexOf l a).isSome = true ↔ a ∈ l := by
  induction l with
  | nil => simp [findIndexOf]
  | cons x xs ih =>
    by_cases hx : x = a
    · subst hx; simp [findIndexOf]
    · cases hfi : findIndexOf xs a with
      | none =>
        simp only [findIndexOf, if_neg hx, hfi, Option.map_none', Option.isSome_none,
          Bool.false_eq_true, false_iff, List.mem_cons, not_or]
        have := ih
        rw [hfi] at this
        simp only [Option.isSome_none, Bool.false_eq_true, false_iff] at this
        exact ⟨fun hax => hx hax.symm, this⟩
      | some i =>
        simp only [findIndexOf, if_neg hx, hfi, Option.map_some', Option.isSome_some,
          true_iff, List.mem_cons]
        have := ih
        rw [hfi] at this
        simp only [Option.isSome_some, true_iff] at this
        exact Or.inr this

/-- C8: directfund.NewObjective succeeds exactly on a turn-0, non-final
initial state whose participant list contains the caller address; any other
initial state (turn number nonzero, or final) yields an error. -/
theorem directFund_newObjective_ok_iff (pre : Bool) (s : State) (addr : Address) :
    exceptIsOk (NewObjective pre s addr) = true ↔
      s.turnNum = 0 ∧ s.isFinal = false ∧ addr ∈ s.participants := by
  unfold NewObjective
  by_cases h0 : s.turnNum = 0
  · by_cases hf : s.isFinal
    · simp [h0, hf, exceptIsOk]
    · cases hfi : findIndexOf s.participants addr with
      | none =>
        have hmem := findIndexOf_isSome s.participants addr
        rw [hfi] at hmem
        simp only [Option.isSome_none, Bool.false_eq_true, false_iff] at hmem
        simp [h0, hf, hfi, exceptIsOk, hmem]
      | some i =>
        have hmem := findIndexOf_isSome s.participants addr
        rw [hfi] at hmem
        simp only [Option.isSome_some, true_iff] at hmem
        simp [h0, hf, hfi, exceptIsOk, hmem]
  · simp [h0, exceptIsOk]

/-- C9: marshalling a direct-fund objective and unmarshalling it back keeps
the status and the three funding thresholds, and reduces the channel to the
zero-value channel carrying only the original channel id; every other piece
of channel data (participants, signatures, holdings) is discarded. -/
theorem directFund_marshal_unmarshal_roundtrip (o : Objective) :
    unmarshalJSON o.marshalJSON =
      { status := o.status, C := { Channel.zeroValue with id := o.C.id },
        myDepositSafetyThreshold := o.myDepositSafetyThreshold,
        myDepositTarget := o.myDepositTarget,
        fullyFundedThreshold := o.fullyFundedThreshold } := rfl

/-- C10: cranking a direct-fund objective whose status is not Approved
returns the objective unchanged, an empty side-effect set, the error
notApproved, and the WaitingFor value nothing, which is also the value the
completion path of the crank returns. -/
theorem directFund_crank_not_approved (o : Objective)
    (h : o.status ≠ ObjectiveStatus.Approved) :
    o.crank = some ⟨o, ⟨[], [], []⟩, WaitingFor.nothing, some DFError.notApproved⟩ := by
  unfold Objective.crank
  rw [if_neg h]

/-- An unapproved objective used to witness the not-approved crank theorem. -/
def c10Objective : Objective :=
  { status := ObjectiveStatus.Unapproved,
    C := { id := 7, myIndex := 0, participants := [10, 11],
           prefundSigners := [], postfundSigners := [], onChainFunding := [] },
    myDepositSafetyThreshold := [], myDepositTarget := [],
    fullyFundedThreshold := [] }

theorem directFund_crank_not_approved_witness :
    c10Objective.status ≠ ObjectiveStatus.Approved ∧
      c10Objective.crank =
        some ⟨c10Objective, ⟨[], [], []⟩, WaitingFor.nothing, some DFError.notApproved⟩ :=
  ⟨by decide, directFund_crank_not_approved c10Objective (by decide)⟩

theorem signAndAddPrefund_prefundSignedByMe (c : Channel) :
    c.signAndAddPrefund.prefundSignedByMe = true := by
  simp [Channel.signAndAddPrefund, Channel.prefundSignedByMe]

theorem signAndAddPostfund_prefundSignedByMe (c : Channel) :
    c.signAndAddPostfund.prefundSignedByMe = c.prefundSignedByMe := rfl

theorem signAndAddPostfund_prefundComplete (c : Channel) :
    c.signAndAddPostfund.prefundComplete = c.prefundComplete := rfl

theorem signAndAddPostfund_postfundSignedByMe (c : Channel) :
    c.signAndAddPostfund.postfundSignedByMe = true := by
  simp [Channel.signAndAddPostfund, Channel.postfundSignedByMe]

theorem signAndAddPrefund_postfundSignedByMe (c : Channel) :
    c.signAndAddPrefund.postfundSignedByMe = c.postfundSignedByMe := rfl

theorem signAndAddPrefund_postfundComplete (c : Channel) :
    c.signAndAddPrefund.postfundComplete = c.postfundComplete := rfl

theorem signAndAddPrefund_onChainFunding (c : Channel) :
    c.signAndAddPrefund.onChainFunding = c.onChainFunding := rfl

theorem signAndAddPostfund_onChainFunding (c : Channel) :
    c.signAndAddPostfund.onChainFunding = c.onChainFunding := rfl

theorem signAndAddPrefund_id (c : Channel) : c.signAndAddPrefund.id = c.id := rfl

theorem signAndAddPostfund_id (c : Channel) : c.signAndAddPostfund.id = c.id := rfl

/-- C1 (amended): cranking the result of a crank of an approved direct-fund
objective, with no external change in between, emits no messages (so no
duplicate prefund or postfund signatures) and no ledger proposals, and its
chain transactions equal those of the first crank: the deposit transaction,
whose guard reads only the unchanged on-chain holdings, is re-submitted
verbatim, and is the only side effect that can repeat. -/
theorem directFund_second_crank_effects (o : Objective) (r₁ r₂ : CrankResult)
    (hs : o.status = ObjectiveStatus.Approved)
    (h₁ : o.crank = some r₁)
    (h₂ : r₁.updated.crank = some r₂) :
    r₂.sideEffects.messagesToSend = [] ∧
      r₂.sideEffects.transactionsToSubmit = r₁.sideEffects.transactionsToSubmit ∧
      r₂.sideEffects.proposalsToProcess = [] := by
  unfold Objective.crank at h₁ h₂
  rw [if_pos hs] at h₁
  simp only [] at h₁
  repeat' split at h₁
  all_goals first
    | (exfalso; exact Option.noConfusion h₁)
    | (injection h₁ with hX
       subst hX
       simp_all [signAndAddPrefund_prefundSignedByMe, signAndAddPostfund_prefundSignedByMe,
         signAndAddPostfund_prefundComplete, signAndAddPostfund_postfundSignedByMe,
         signAndAddPrefund_postfundSignedByMe, signAndAddPrefund_postfundComplete,
         signAndAddPrefund_onChainFunding, signAndAddPostfund_onChainFunding,
         signAndAddPrefund_id, signAndAddPostfund_id,
         Objective.fundingComplete, Objective.amountToDeposit, Objective.safeToDeposit]
       <;> first
         | rfl
         | (subst h₂; exact ⟨rfl, rfl, rfl⟩))

/-- An approved direct-fund objective in its funding window: prefund fully
signed, holdings at the safety threshold and below the deposit target. -/
def c1Objective : Objective :=
  { status := ObjectiveStatus.Approved,
    C := { id := 1, myIndex := 0, participants := [10, 11],
           prefundSigners := [0, 1], postfundSigners := [], onChainFunding := [(0, 0)] },
    myDepositSafetyThreshold := [(0, 0)], myDepositTarget := [(0, 5)],
    fullyFundedThreshold := [(0, 10)] }

theorem directFund_crank_not_idempotent_counterexample :
    (c1Objective.crank.bind (fun r => r.updated.crank)).map
        (fun r => r.sideEffects) =
      some ⟨[], [⟨1, [(0, 5)]⟩], []⟩ ∧
      some (⟨[], [⟨1, [(0, 5)]⟩], []⟩ : SideEffects) ≠ some (⟨[], [], []⟩ : SideEffects) := by
  constructor
  · rfl
  · decide

/-- An approved direct-fund objective one crank away from the funding
window, used to witness the amended idempotence theorem: the first crank
signs the prefund and deposits, the second re-submits only the deposit. -/
def c1WitnessObjective : Objective :=
  { status := ObjectiveStatus.Approved,
    C := { id := 2, myIndex := 0, participants := [10, 11],
           prefundSigners := [1], postfundSigners := [], onChainFunding := [(0, 0)] },
    myDepositSafetyThreshold := [(0, 0)], myDepositTarget := [(0, 5)],
    fullyFundedThreshold := [(0, 10)] }

theorem directFund_second_crank_effects_witness :
    c1WitnessObjective.status = ObjectiveStatus.Approved ∧
      ∃ r₁ r₂ : CrankResult,
        c1WitnessObjective.crank = some r₁ ∧
        r₁.updated.crank = some r₂ ∧
        (r₂.sideEffects.messagesToSend = [] ∧
          r₂.sideEffects.transactionsToSubmit = r₁.sideEffects.transactionsToSubmit ∧
          r₂.sideEffects.proposalsToProcess = []) := by
  refine ⟨rfl, (c1WitnessObjective.crank).get (by decide),
    (((c1WitnessObjective.crank).get (by decide)).updated.crank).get (by decide),
    by decide, by decide, ?_⟩
  exact directFund_second_crank_effects c1WitnessObjective _ _ rfl (by decide) (by decide)


theorem amountToDepositFrom_eq (ts : List (Asset × Int)) (h : Funds) :
    ∀ d, amountToDepositFrom ts h = some d →
      d = ts.map (fun p => (p.1, p.2 - (lookupKey h p.1).getD 0)) := by
  induction ts with
  | nil =>
    intro d hd
    rw [amountToDepositFrom] at hd
    injection hd with hd
    rw [← hd, List.map_nil]
  | cons p rest ih =>
    intro d hd
    obtain ⟨a, t⟩ := p
    rw [amountToDepositFrom] at hd
    cases hl : lookupKey h a with
    | none => rw [hl] at hd; exact Option.noConfusion hd
    | some v =>
      rw [hl] at hd
      dsimp only at hd
      cases hr : amountToDepositFrom rest h with
      | none => rw [hr] at hd; exact Option.noConfusion hd
      | some ds =>
        rw [hr] at hd
        dsimp only at hd
        injection hd with hd
        rw [← hd, List.map_cons]
        rw [← ih ds hr]
        rw [hl]
        rfl

theorem amountToDepositFrom_pos (ts : List (Asset × Int)) (h : Funds) :
    ∀ d, amountToDepositFrom ts h = some d →
      (fundsIsNonZero d = true ↔
        ∃ p ∈ ts, ∃ v, lookupKey h p.1 = some v ∧ v < p.2) := by
  induction ts with
  | nil =>
    intro d hd
    rw [amountToDepositFrom] at hd
    injection hd with hd
    rw [← hd]
    simp [fundsIsNonZero]
  | cons p rest ih =>
    intro d hd
    obtain ⟨a, t⟩ := p
    rw [amountToDepositFrom] at hd
    cases hl : lookupKey h a with
    | none => rw [hl] at hd; exact Option.noConfusion hd
    | some v =>
      rw [hl] at hd
      dsimp only at hd
      cases hr : amountToDepositFrom rest h with
      | none => rw [hr] at hd; exact Option.noConfusion hd
      | some ds =>
        rw [hr] at hd
        dsimp only at hd
        injection hd with hd
        rw [← hd]
        have hih := ih ds hr
        simp only [fundsIsNonZero, List.any_cons, Bool.or_eq_true, decide_eq_true_eq,
          List.mem_cons] at hih ⊢
        constructor
        · intro hc
          rcases hc with hpos | hrest
          · exact ⟨(a, t), Or.inl rfl, v, hl, by omega⟩
          · obtain ⟨q, hq, w, hw, hlt⟩ := hih.mp hrest
            exact ⟨q, Or.inr hq, w, hw, hlt⟩
        · intro hc
          obtain ⟨q, hq, w, hw, hlt⟩ := hc
          rcases hq with hq | hq
          · subst hq
            rw [hl] at hw
            injection hw with hw
            subst hw
            exact Or.inl (by omega)
          · exact Or.inr (hih.mpr ⟨q, hq, w, hw, hlt⟩)

/-- C2 (amended): in the funding phase (approved, prefund signed and
complete, funding not yet complete), Crank submits a deposit chain
transaction exactly when the recorded holdings are at or above the deposit
safety threshold (safeToDeposit) and strictly below the deposit target for
at least one asset; the submitted deposit equals target minus holdings for
each asset of the deposit target, without clamping, so in a single-asset
channel the deposit is strictly positive, while with several assets the
entry for an asset whose holdings already reach its target can be
negative. -/
theorem directFund_crank_funding_deposit (o : Objective) (r : CrankResult)
    (atd : Funds) (std : Bool)
    (hs : o.status = ObjectiveStatus.Approved)
    (hpre : o.C.prefundSignedByMe = true)
    (hpc : o.C.prefundComplete = true)
    (hfc : o.fundingComplete = false)
    (hatd : o.amountToDeposit = some atd)
    (hstd : o.safeToDeposit = some std)
    (hcr : o.crank = some r) :
    r.sideEffects.transactionsToSubmit =
        (if std && fundsIsNonZero atd then [⟨o.C.id, atd⟩] else []) ∧
      (fundsIsNonZero atd = true ↔
        ∃ p ∈ o.myDepositTarget, ∃ v, lookupKey o.C.onChainFunding p.1 = some v ∧ v < p.2) ∧
      atd = o.myDepositTarget.map
        (fun p => (p.1, p.2 - (lookupKey o.C.onChainFunding p.1).getD 0)) := by
  refine ⟨?_, amountToDepositFrom_pos _ _ _ hatd, amountToDepositFrom_eq _ _ _ hatd⟩
  have hatd2 : amountToDepositFrom o.myDepositTarget o.C.onChainFunding = some atd := hatd
  have hstd2 : safeToDepositFrom o.myDepositSafetyThreshold o.C.onChainFunding = some std := hstd
  have hfc2 : fundingCompleteFrom o.fullyFundedThreshold o.C.onChainFunding = false := hfc
  unfold Objective.crank at hcr
  rw [if_pos hs] at hcr
  simp only [hpre, if_true, Objective.amountToDeposit, Objective.safeToDeposit,
    Objective.fundingComplete, hatd2, hstd2, hfc2, hpc] at hcr
  cases std with
  | false =>
    simp only [Bool.not_false, Bool.not_true, Bool.and_false, Bool.and_true,
      Bool.true_and, Bool.false_and, if_false, if_true] at hcr ⊢
    injection hcr with hcr
    rw [← hcr]
    rfl
  | true =>
    simp only [Bool.not_false, Bool.not_true, Bool.and_false, Bool.and_true,
      Bool.true_and, Bool.false_and, if_false, if_true] at hcr ⊢
    injection hcr with hcr
    rw [← hcr]

/-- An approved direct-fund objective in its funding phase over two assets:
asset 0 holds 7, above its deposit target 5; asset 1 holds 0, below its
deposit target 3; both safety thresholds are met and funding is not yet
complete. -/
def c2Objective : Objective :=
  { status := ObjectiveStatus.Approved,
    C := { id := 1, myIndex := 0, participants := [10, 11],
           prefundSigners := [0, 1], postfundSigners := [],
           onChainFunding := [(0, 7), (1, 0)] },
    myDepositSafetyThreshold := [(0, 0), (1, 0)],
    myDepositTarget := [(0, 5), (1, 3)],
    fullyFundedThreshold := [(0, 10), (1, 6)] }

theorem directFund_crank_deposit_negative_counterexample :
    c2Objective.crank.map (fun r => r.sideEffects.transactionsToSubmit) =
        some [⟨1, [(0, -2), (1, 3)]⟩] ∧
      (-2 : Int) < 0 ∧
      lookupKey c2Objective.C.onChainFunding 0 = some 7 ∧
      lookupKey c2Objective.myDepositTarget 0 = some 5 ∧
      (5 : Int) ≤ 7 :=
  ⟨rfl, by decide, rfl, rfl, by decide⟩

theorem directFund_crank_funding_deposit_witness :
    ∃ r atd,
      c2Objective.crank = some r ∧
      c2Objective.amountToDeposit = some atd ∧
      (r.sideEffects.transactionsToSubmit =
          (if true && fundsIsNonZero atd then [⟨c2Objective.C.id, atd⟩] else []) ∧
        (fundsIsNonZero atd = true ↔
          ∃ p ∈ c2Objective.myDepositTarget,
            ∃ v, lookupKey c2Objective.C.onChainFunding p.1 = some v ∧ v < p.2) ∧
        atd = c2Objective.myDepositTarget.map
          (fun p => (p.1, p.2 - (lookupKey c2Objective.C.onChainFunding p.1).getD 0))) :=
  ⟨_, _, rfl, rfl,
   directFund_crank_funding_deposit c2Objective _ _ true rfl (by decide) (by decide)
     rfl rfl rfl rfl⟩


/-- Two-party ledger outcome.
Modelled from the spec: consensus_channel.LedgerOutcome, absent from src;
left and right balances for one asset and the guarantees keyed by their
target destination. -/
structure LedgerOutcome where
  asset : Asset
  leftBal : Int
  rightBal : Int
  guarantees : List (Destination × Guarantee)
deriving DecidableEq

/-- Rejection reasons of an illegal ledger proposal.
Modelled from the spec: the legality conditions of Add and Remove. -/
inductive ProposalErr
  | duplicateTarget
  | leftDepositExceedsAmount
  | leftCannotAfford
  | rightCannotAfford
  | noSuchGuarantee
  | negativeLeftAmount
  | leftAmountExceedsGuarantee
deriving DecidableEq

/-- Association-list removal of the first binding of a key, mirroring a Go
map delete. -/
def eraseKey {α : Type} : List (Nat × α) → Nat → List (Nat × α)
  | [], _ => []
  | (k, v) :: rest, t => if k = t then rest else (k, v) :: eraseKey rest t

/-- Modelled from the spec: applying an Add proposal: requires a fresh
target, leftDeposit at most the guarantee amount and both balances able to
afford their shares; moves leftDeposit out of the left balance and the rest
out of the right balance into the new guarantee. -/
def applyAdd (lo : LedgerOutcome) (g : Guarantee) (leftDeposit : Int) :
    Except ProposalErr LedgerOutcome :=
  if (lookupKey lo.guarantees g.target).isSome then Except.error ProposalErr.duplicateTarget
  else if g.amount < leftDeposit then Except.error ProposalErr.leftDepositExceedsAmount
  else if lo.leftBal < leftDeposit then Except.error ProposalErr.leftCannotAfford
  else if lo.rightBal < g.amount - leftDeposit then Except.error ProposalErr.rightCannotAfford
  else Except.ok
    { lo with leftBal := lo.leftBal - leftDeposit,
              rightBal := lo.rightBal - (g.amount - leftDeposit),
              guarantees := lo.guarantees ++ [(g.target, g)] }

/-- Modelled from the spec: applying a Remove proposal: requires an existing
guarantee for the target and a leftAmount between zero and its amount;
returns leftAmount to the left balance and the rest to the right balance and
deletes the guarantee. -/
def applyRemove (lo : LedgerOutcome) (target : Destination) (leftAmount : Int) :
    Except ProposalErr LedgerOutcome :=
  match lookupKey lo.guarantees target with
  | none => Except.error ProposalErr.noSuchGuarantee
  | some g =>
    if leftAmount < 0 then Except.error ProposalErr.negativeLeftAmount
    else if g.amount < leftAmount then Except.error ProposalErr.leftAmountExceedsGuarantee
    else Except.ok
      { lo with leftBal := lo.leftBal + leftAmount,
                rightBal := lo.rightBal + (g.amount - leftAmount),
                guarantees := eraseKey lo.guarantees target }

/-- Modelled from the spec: applying a legal proposal to the consensus
outcome of a two-party ledger. -/
def applyProposal (lo : LedgerOutcome) : Proposal → Except ProposalErr LedgerOutcome
  | Proposal.add g leftDeposit => applyAdd lo g leftDeposit
  | Proposal.remove target leftAmount => applyRemove lo target leftAmount

/-- Sum of the amounts of a guarantee set. -/
def guaranteeTotal (gs : List (Destination × Guarantee)) : Int :=
  (gs.map (fun p => p.2.amount)).sum

/-- The conserved quantity of a ledger outcome: left balance plus right
balance plus the sum of the guarantee amounts. -/
def ledgerTotal (lo : LedgerOutcome) : Int :=
  lo.leftBal + lo.rightBal + guaranteeTotal lo.guarantees

theorem guaranteeTotal_eraseKey (gs : List (Destination × Guarantee)) (t : Destination)
    (g : Guarantee) (h : lookupKey gs t = some g) :
    guaranteeTotal (eraseKey gs t) = guaranteeTotal gs - g.amount := by
  induction gs with
  | nil => exact absurd h (by simp [lookupKey])
  | cons p rest ih =>
    obtain ⟨k, v⟩ := p
    by_cases hk : k = t
    · rw [lookupKey, if_pos hk] at h
      injection h with h
      subst h
      simp only [eraseKey, if_pos hk, guaranteeTotal, List.map_cons, List.sum_cons]
      ring
    · rw [lookupKey, if_neg hk] at h
      have := ih h
      simp only [eraseKey, if_neg hk, guaranteeTotal, List.map_cons, List.sum_cons] at this ⊢
      omega

/-- C4: applying any legal Add or Remove proposal to a ledger outcome keeps
the sum of the left balance, the right balance and the guarantee amounts
unchanged. -/
theorem consensus_apply_conserves_total (lo lo2 : LedgerOutcome) (p : Proposal)
    (h : applyProposal lo p = Except.ok lo2) :
    ledgerTotal lo2 = ledgerTotal lo := by
  cases p with
  | add g leftDeposit =>
    simp only [applyProposal] at h
    unfold applyAdd at h
    repeat' split at h
    all_goals first
      | exact Except.noConfusion h
      | (injection h with h
         subst h
         simp only [ledgerTotal, guaranteeTotal, List.map_append, List.sum_append,
           List.map_cons, List.sum_cons, List.map_nil, List.sum_nil]
         ring)
  | remove target leftAmount =>
    simp only [applyProposal] at h
    unfold applyRemove at h
    split at h
    next => exact Except.noConfusion h
    next g hg =>
      have htot := guaranteeTotal_eraseKey lo.guarantees target g hg
      repeat' split at h
      all_goals first
        | exact Except.noConfusion h
        | (injection h with h
           subst h
           simp only [ledgerTotal, htot]
           ring)

/-- A ledger outcome with five units on each side and no guarantees. -/
def c4Outcome : LedgerOutcome :=
  { asset := 0, leftBal := 5, rightBal := 5, guarantees := [] }

theorem consensus_apply_conserves_total_witness :
    applyProposal c4Outcome (Proposal.add ⟨4, 9, 10, 11⟩ 2) =
        Except.ok { asset := 0, leftBal := 3, rightBal := 3, guarantees := [(9, ⟨4, 9, 10, 11⟩)] } ∧
      ledgerTotal { asset := 0, leftBal := 3, rightBal := 3,
                    guarantees := [(9, (⟨4, 9, 10, 11⟩ : Guarantee))] } = ledgerTotal c4Outcome :=
  ⟨rfl,
   consensus_apply_conserves_total c4Outcome _ (Proposal.add ⟨4, 9, 10, 11⟩ 2) rfl⟩

/-- Payment voucher.
Modelled from the spec: payments.Voucher, absent from src; the cumulative
amount paid on the channel, with the signature abstracted to the address
that signing recovery yields. -/
structure Voucher where
  channelId : Nat
  amount : Int
  signer : Address
deriving DecidableEq

/-- Per-channel entry of the voucher manager.
Modelled from the spec: payer, payee, starting balance and the largest
voucher amount received so far. -/
structure PaymentChannel where
  payer : Address
  payee : Address
  startingBalance : Int
  largestVoucher : Int
deriving DecidableEq

/-- Channel balance reported by the voucher manager: remaining is starting
minus largest, paid is largest. -/
structure Balance where
  remaining : Int
  paid : Int
deriving DecidableEq

/-- Error returns of the voucher manager.
Modelled from the spec and TestPaymentManager. -/
inductive VoucherErr
  | channelNotRegistered
  | amountExceedsCapacity
  | wrongSigner
deriving DecidableEq

/-- Voucher manager: the owner address and the registered channels.
Modelled from the spec: payments.VoucherManager, absent from src. -/
structure VoucherManager where
  me : Address
  channels : List (Nat × PaymentChannel)
deriving DecidableEq

/-- Receive of the voucher manager.
Modelled from the spec, with one adjustment pinned by TestPaymentManager
(Receiving old vouchers is ok): a voucher whose amount does not exceed the
stored largest is accepted and returns the stored total without a signature
check; an over-balance voucher is rejected first; a voucher that strictly
increases the stored largest must be signed by the registered payer and
updates the stored largest. The first component is the returned total or
error, the second the possibly updated manager. -/
def VoucherManager.receive (vm : VoucherManager) (v : Voucher) :
    Except VoucherErr Int × VoucherManager :=
  match lookupKey vm.channels v.channelId with
  | none => (Except.error VoucherErr.channelNotRegistered, vm)
  | some entry =>
    if entry.startingBalance < v.amount then (Except.error VoucherErr.amountExceedsCapacity, vm)
    else if v.amount ≤ entry.largestVoucher then (Except.ok entry.largestVoucher, vm)
    else if v.signer ≠ entry.payer then (Except.error VoucherErr.wrongSigner, vm)
    else (Except.ok v.amount,
      { vm with channels :=
          upsertKey vm.channels v.channelId { entry with largestVoucher := v.amount } })

/-- Modelled from the spec: the balance of a registered channel. -/
def VoucherManager.balance (vm : VoucherManager) (cid : Nat) : Option Balance :=
  (lookupKey vm.channels cid).map
    (fun e => { remaining := e.startingBalance - e.largestVoucher, paid := e.largestVoucher })

theorem lookupKey_upsert_self {α : Type} (l : List (Nat × α)) (t : Nat) (v : α) :
    lookupKey (upsertKey l t v) t = some v := by
  simp [upsertKey, lookupKey]

/-- C3 (amended): for a registered channel, Receive accepts a voucher whose
amount is at most the stored largest and returns the unchanged total paid
(idempotent on equal amounts, and old vouchers are accepted rather than
rejected); on a strict increase within the starting balance and signed by
the registered payer it updates the stored largest and returns the new
total; and every successful receive returns a total at least the stored
largest, which becomes the new stored largest, so the returned total paid is
monotonic non-decreasing across successive receives. -/
theorem voucher_receive_behaviour (vm : VoucherManager) (v : Voucher) (entry : PaymentChannel)
    (hreg : lookupKey vm.channels v.channelId = some entry)
    (hinv : entry.largestVoucher ≤ entry.startingBalance) :
    (v.amount ≤ entry.largestVoucher → vm.receive v = (Except.ok entry.largestVoucher, vm)) ∧
    (entry.largestVoucher < v.amount → v.amount ≤ entry.startingBalance →
      v.signer = entry.payer →
      vm.receive v =
        (Except.ok v.amount,
         { vm with channels :=
             upsertKey vm.channels v.channelId { entry with largestVoucher := v.amount } })) ∧
    (∀ t vm2, vm.receive v = (Except.ok t, vm2) →
      entry.largestVoucher ≤ t ∧
        ∃ e2, lookupKey vm2.channels v.channelId = some e2 ∧ e2.largestVoucher = t) := by
  refine ⟨?_, ?_, ?_⟩
  · intro hle
    unfold VoucherManager.receive
    rw [hreg]
    dsimp only
    rw [if_neg (by omega), if_pos hle]
  · intro hlt hcap hsig
    unfold VoucherManager.receive
    rw [hreg]
    dsimp only
    rw [if_neg (by omega), if_neg (by omega), if_neg (by simp [hsig])]
  · intro t vm2 hrec
    unfold VoucherManager.receive at hrec
    rw [hreg] at hrec
    dsimp only at hrec
    split at hrec
    · exact absurd (congrArg Prod.fst hrec) (by simp)
    · split at hrec
      next hle =>
        have h1 : entry.largestVoucher = t := by
          have := congrArg Prod.fst hrec
          simpa using this
        have h2 : vm = vm2 := congrArg Prod.snd hrec
        subst h2
        exact ⟨le_of_eq h1, entry, hreg, h1⟩
      next hle =>
        split at hrec
        · exact absurd (congrArg Prod.fst hrec) (by simp)
        · rw [Prod.mk.injEq] at hrec
          obtain ⟨h1, h2⟩ := hrec
          injection h1 with h1
          subst h1
          subst h2
          refine ⟨by omega, { entry with largestVoucher := v.amount }, ?_, rfl⟩
          exact lookupKey_upsert_self vm.channels v.channelId _

/-- A receipt manager with stored largest voucher 40 on channel 1, as after
the two payments of TestPaymentManager. -/
def c3Manager : VoucherManager :=
  { me := 2, channels := [(1, { payer := 1, payee := 2,
                                startingBalance := 1000, largestVoucher := 40 })] }

/-- A correctly signed voucher for 20, smaller than the stored largest 40. -/
def c3OldVoucher : Voucher := { channelId := 1, amount := 20, signer := 1 }

theorem voucher_receive_old_accepted_counterexample :
    c3OldVoucher.amount <
        ((lookupKey c3Manager.channels c3OldVoucher.channelId).map
          (fun e => e.largestVoucher)).getD 0 ∧
      c3Manager.receive c3OldVoucher = (Except.ok 40, c3Manager) :=
  ⟨by decide, rfl⟩

/-- A fresh receipt manager and first voucher used to witness the receive
behaviour theorem. -/
def c3WitnessManager : VoucherManager :=
  { me := 2, channels := [(1, { payer := 1, payee := 2,
                                startingBalance := 1000, largestVoucher := 0 })] }

theorem voucher_receive_behaviour_witness :
    (({ channelId := 1, amount := 20, signer := 1 } : Voucher).amount ≤ 1000) ∧
      ((({ channelId := 1, amount := 20, signer := 1 } : Voucher).amount ≤ 0 →
          c3WitnessManager.receive { channelId := 1, amount := 20, signer := 1 } =
            (Except.ok 0, c3WitnessManager)) ∧
        (0 < ({ channelId := 1, amount := 20, signer := 1 } : Voucher).amount →
          ({ channelId := 1, amount := 20, signer := 1 } : Voucher).amount ≤ 1000 →
          ({ channelId := 1, amount := 20, signer := 1 } : Voucher).signer = 1 →
          c3WitnessManager.receive { channelId := 1, amount := 20, signer := 1 } =
            (Except.ok 20, { c3WitnessManager with channels := upsertKey c3WitnessManager.channels 1 ⟨1, 2, 1000, 20⟩ })) ∧
        (∀ t vm2,
          c3WitnessManager.receive { channelId := 1, amount := 20, signer := 1 } =
              (Except.ok t, vm2) →
          (0 : Int) ≤ t ∧
            ∃ e2, lookupKey vm2.channels 1 = some e2 ∧ e2.largestVoucher = t)) :=
  ⟨by decide,
   voucher_receive_behaviour c3WitnessManager { channelId := 1, amount := 20, signer := 1 }
     { payer := 1, payee := 2, startingBalance := 1000, largestVoucher := 0 }
     rfl (by decide)⟩

/-- C5: for a registered channel, a voucher whose cumulative amount exceeds
the starting balance is rejected: Receive returns an error, leaves the
manager unchanged and so reports the same remaining and paid balance; a
correctly signed voucher whose amount equals the starting balance exactly is
accepted. -/
theorem voucher_receive_capacity (vm : VoucherManager) (v : Voucher) (entry : PaymentChannel)
    (hreg : lookupKey vm.channels v.channelId = some entry) :
    (entry.startingBalance < v.amount →
      vm.receive v = (Except.error VoucherErr.amountExceedsCapacity, vm) ∧
        (vm.receive v).2.balance v.channelId = vm.balance v.channelId) ∧
    (v.amount = entry.startingBalance → v.signer = entry.payer →
      ∃ t, (vm.receive v).1 = Except.ok t) := by
  constructor
  · intro hover
    have hrec : vm.receive v = (Except.error VoucherErr.amountExceedsCapacity, vm) := by
      unfold VoucherManager.receive
      rw [hreg]
      dsimp only
      rw [if_pos hover]
    exact ⟨hrec, by rw [hrec]⟩
  · intro heq hsig
    unfold VoucherManager.receive
    rw [hreg]
    dsimp only
    rw [if_neg (by omega)]
    by_cases hle : v.amount ≤ entry.largestVoucher
    · rw [if_pos hle]
      exact ⟨entry.largestVoucher, rfl⟩
    · rw [if_neg hle, if_neg (by simp [hsig])]
      exact ⟨v.amount, rfl⟩

/-- A receipt manager with ten units of capacity and six already paid, as in
the virtual payment scenario of the spec. -/
def c5Manager : VoucherManager :=
  { me := 2, channels := [(1, { payer := 1, payee := 2,
                                startingBalance := 10, largestVoucher := 6 })] }

theorem voucher_receive_capacity_witness :
    ((10 : Int) < 11 →
      c5Manager.receive { channelId := 1, amount := 11, signer := 1 } =
          (Except.error VoucherErr.amountExceedsCapacity, c5Manager) ∧
        (c5Manager.receive { channelId := 1, amount := 11, signer := 1 }).2.balance 1 =
          c5Manager.balance 1) ∧
      ((11 : Int) = 10 → (1 : Nat) = 1 →
        ∃ t, (c5Manager.receive { channelId := 1, amount := 11, signer := 1 }).1 = Except.ok t) :=
  voucher_receive_capacity c5Manager { channelId := 1, amount := 11, signer := 1 }
    { payer := 1, payee := 2, startingBalance := 10, largestVoucher := 6 } rfl

theorem lookupKey_filter_ne {α : Type} (l : List (Nat × α)) (t t2 : Nat) (h : t2 ≠ t) :
    lookupKey (l.filter (fun p => p.1 ≠ t)) t2 = lookupKey l t2 := by
  induction l with
  | nil => rfl
  | cons p rest ih =>
    obtain ⟨k, v⟩ := p
    rw [List.filter_cons]
    by_cases hk : k = t
    · rw [if_neg (by simp [hk])]
      rw [ih, lookupKey, if_neg (by omega)]
    · rw [if_pos (by simp [hk])]
      by_cases hk2 : k = t2
      · rw [lookupKey, if_pos hk2, lookupKey, if_pos hk2]
      · rw [lookupKey, if_neg hk2, lookupKey, if_neg hk2, ih]

theorem lookupKey_filter_ne_self {α : Type} (l : List (Nat × α)) (t : Nat) :
    lookupKey (l.filter (fun p => p.1 ≠ t)) t = none := by
  induction l with
  | nil => rfl
  | cons p rest ih =>
    obtain ⟨k, v⟩ := p
    rw [List.filter_cons]
    by_cases hk : k = t
    · rw [if_neg (by simp [hk])]
      exact ih
    · rw [if_pos (by simp [hk])]
      rw [lookupKey, if_neg hk]
      exact ih

theorem lookupKey_upsert_ne {α : Type} (l : List (Nat × α)) (t t2 : Nat) (v : α)
    (h : t2 ≠ t) : lookupKey (upsertKey l t v) t2 = lookupKey l t2 := by
  unfold upsertKey
  rw [lookupKey, if_neg (fun ho => h ho.symm)]
  exact lookupKey_filter_ne l t t2 h

/-- ConsensusChannel record as stored by the engine after direct funding.
Modelled from the spec: a two-party ledger spawned from the funded channel,
sharing its channel id, at turn 1 with an empty proposal queue. -/
structure ConsensusChannelRec where
  id : Destination
  turnNum : Nat
  proposalQueue : List Proposal
deriving DecidableEq

/-- Modelled from the spec: directfund.Objective.CreateConsensusChannel,
called by the engine at completion. -/
def createConsensusChannel (c : Channel) : ConsensusChannelRec :=
  { id := c.id, turnNum := 1, proposalQueue := [] }

/-- The engine store restricted to what attemptProgress touches: channels
and consensus channels keyed by channel id, direct-fund objectives keyed by
their channel id, and the owned channel ids. -/
structure EngineStore where
  objectives : List (Nat × Objective)
  channels : List (Nat × Channel)
  consensusChannels : List (Nat × ConsensusChannelRec)
  owned : List Destination
deriving DecidableEq

/-- Modelled from the spec: Store.SetObjective, an upsert that re-indexes
and stores the owned channel. -/
def EngineStore.setObjective (s : EngineStore) (o : Objective) : EngineStore :=
  { s with objectives := upsertKey s.objectives o.C.id o,
           channels := upsertKey s.channels o.C.id o.C }

/-- Modelled from the spec: Store.ReleaseChannelFromOwnership. -/
def EngineStore.releaseChannelFromOwnership (s : EngineStore) (cid : Destination) :
    EngineStore :=
  { s with owned := s.owned.filter (fun d => d ≠ cid) }

/-- Modelled from the spec: Store.SetConsensusChannel. -/
def EngineStore.setConsensusChannel (s : EngineStore) (cc : ConsensusChannelRec) :
    EngineStore :=
  { s with consensusChannels := upsertKey s.consensusChannels cc.id cc }

/-- Modelled from the spec: Store.DestroyChannel. -/
def EngineStore.destroyChannel (s : EngineStore) (cid : Destination) : EngineStore :=
  { s with channels := s.channels.filter (fun p => p.1 ≠ cid) }

/-- Source engine.attemptProgress specialised to a direct-fund objective:
crank, persist the cranked objective, and when the crank waits for nothing
report the objective completed, release channel ownership, then spawn and
store the consensus channel and destroy the stored Channel of the same id
(spawnConsensusChannelIfDirectFundObjective); the side effects of the crank
are returned for the dispatch that follows. A crank error aborts before any
store mutation, as does the modelled runtime fault. -/
def attemptProgressDF (s : EngineStore) (o : Objective) :
    Option (EngineStore × List Objective × SideEffects) :=
  match o.crank with
  | none => none
  | some r =>
    if r.err.isSome then none
    else
      let s1 := s.setObjective r.updated
      if r.waitingFor = WaitingFor.nothing then
        let s2 := s1.releaseChannelFromOwnership r.updated.C.id
        let s3 := s2.setConsensusChannel (createConsensusChannel r.updated.C)
        let s4 := s3.destroyChannel (createConsensusChannel r.updated.C).id
        some (s4, [r.updated], r.sideEffects)
      else
        some (s1, [], r.sideEffects)

/-- C6: when the crank of a direct-fund objective succeeds and returns the
WaitingFor value nothing, attemptProgress reports the objective completed,
releases its channel from ownership, stores a consensus channel derived from
the channel, and destroys the stored Channel of the same id, so the final
store holds a ConsensusChannel and no Channel under that id. -/
theorem engine_completion_handoff (s : EngineStore) (o : Objective) (r : CrankResult)
    (hc : o.crank = some r) (herr : r.err = none)
    (hw : r.waitingFor = WaitingFor.nothing) :
    ∃ s2, attemptProgressDF s o = some (s2, [r.updated], r.sideEffects) ∧
      lookupKey s2.channels r.updated.C.id = none ∧
      lookupKey s2.consensusChannels r.updated.C.id =
        some (createConsensusChannel r.updated.C) ∧
      r.updated.C.id ∉ s2.owned := by
  refine ⟨(((s.setObjective r.updated).releaseChannelFromOwnership
      r.updated.C.id).setConsensusChannel
        (createConsensusChannel r.updated.C)).destroyChannel
          (createConsensusChannel r.updated.C).id, ?_, ?_, ?_, ?_⟩
  · unfold attemptProgressDF
    rw [hc]
    dsimp only
    rw [herr]
    rw [if_neg (by simp), if_pos hw]
  · exact lookupKey_filter_ne_self _ _
  · exact lookupKey_upsert_self _ _ _
  · simp [EngineStore.destroyChannel, EngineStore.setConsensusChannel,
      EngineStore.releaseChannelFromOwnership, EngineStore.setObjective]

/-- A store holding the funded channel of the completed objective below. -/
def c6Store : EngineStore :=
  { objectives := [],
    channels := [(1, { id := 1, myIndex := 0, participants := [10, 11],
                       prefundSigners := [0, 1], postfundSigners := [0, 1],
                       onChainFunding := [(0, 10)] })],
    consensusChannels := [], owned := [1] }

/-- A fully signed, fully funded approved direct-fund objective, whose crank
returns WaitingFor nothing with no error. -/
def c6Objective : Objective :=
  { status := ObjectiveStatus.Approved,
    C := { id := 1, myIndex := 0, participants := [10, 11],
           prefundSigners := [0, 1], postfundSigners := [0, 1],
           onChainFunding := [(0, 10)] },
    myDepositSafetyThreshold := [(0, 0)], myDepositTarget := [(0, 5)],
    fullyFundedThreshold := [(0, 10)] }

theorem engine_completion_handoff_witness :
    ∃ s2, attemptProgressDF c6Store c6Objective = some (s2, [c6Objective], ⟨[], [], []⟩) ∧
      lookupKey s2.channels c6Objective.C.id = none ∧
      lookupKey s2.consensusChannels c6Objective.C.id =
        some (createConsensusChannel c6Objective.C) ∧
      c6Objective.C.id ∉ s2.owned :=
  engine_completion_handoff c6Store c6Objective
    ⟨c6Objective, ⟨[], [], []⟩, WaitingFor.nothing, none⟩ (by decide) rfl rfl

/-- Objective view used by the engine rejection handler: id, status and the
other participants a rejection would notify. -/
structure GenObjective where
  id : Nat
  status : ObjectiveStatus
  counterparties : List Address
deriving DecidableEq

/-- Modelled from the spec: Objective.Reject transitions the objective to
Rejected and declares one outbound rejection notice per other participant as
its side effects. -/
def rejectObjective (o : GenObjective) : GenObjective × SideEffects :=
  ({ o with status := ObjectiveStatus.Rejected },
   ⟨o.counterparties.map
      (fun p => { To := p, objectiveId := o.id, payload := MsgPayload.rejection }),
    [], []⟩)

/-- Source engine.handleMessage, the RejectedObjectives loop: each entry is
fetched from the store (a store miss aborts the handler), an already
rejected objective is skipped, otherwise the objective is rejected with the
side effects of Reject discarded, persisted, and reported completed. The
third component collects the messages the loop sends out, which is none:
the loop never calls executeSideEffects. -/
def handleRejectedEntries (s : List (Nat × GenObjective)) :
    List Nat → Option (List (Nat × GenObjective) × List GenObjective × List Message)
  | [] => some (s, [], [])
  | e :: rest =>
    match lookupKey s e with
    | none => none
    | some ob =>
      if ob.status = ObjectiveStatus.Rejected then handleRejectedEntries s rest
      else
        match handleRejectedEntries
            (upsertKey s (rejectObjective ob).1.id (rejectObjective ob).1) rest with
        | none => none
        | some (s2, completed, msgs) => some (s2, (rejectObjective ob).1 :: completed, msgs)

/-- The store indexes objectives under their own id. -/
def storeWF (s : List (Nat × GenObjective)) : Prop :=
  ∀ k ob, lookupKey s k = some ob → ob.id = k

theorem storeWF_upsert (s : List (Nat × GenObjective)) (v : GenObjective)
    (hwf : storeWF s) : storeWF (upsertKey s v.id v) := by
  intro k ob hlk
  by_cases hk : k = v.id
  · subst hk
    rw [lookupKey_upsert_self] at hlk
    injection hlk with hlk
    subst hlk
    rfl
  · rw [lookupKey_upsert_ne _ _ _ _ hk] at hlk
    exact hwf k ob hlk

theorem handleRejected_no_messages (es : List Nat) :
    ∀ s s2 completed msgs, handleRejectedEntries s es = some (s2, completed, msgs) →
      msgs = [] := by
  induction es with
  | nil =>
    intro s s2 completed msgs h
    rw [handleRejectedEntries] at h
    rw [Option.some.injEq, Prod.mk.injEq, Prod.mk.injEq] at h
    exact h.2.2.symm
  | cons e rest ih =>
    intro s s2 completed msgs h
    rw [handleRejectedEntries] at h
    cases hle : lookupKey s e with
    | none => rw [hle] at h; exact Option.noConfusion h
    | some ob =>
      rw [hle] at h
      dsimp only at h
      by_cases hst : ob.status = ObjectiveStatus.Rejected
      · rw [if_pos hst] at h
        exact ih s s2 completed msgs h
      · rw [if_neg hst] at h
        cases hrec : handleRejectedEntries
            (upsertKey s (rejectObjective ob).1.id (rejectObjective ob).1) rest with
        | none => rw [hrec] at h; exact Option.noConfusion h
        | some trip =>
          obtain ⟨s3, completed3, msgs3⟩ := trip
          rw [hrec] at h
          dsimp only at h
          rw [Option.some.injEq, Prod.mk.injEq, Prod.mk.injEq] at h
          rw [← h.2.2]
          exact ih _ s3 completed3 msgs3 hrec

theorem handleRejected_invariant (es : List Nat) :
    ∀ s s2 completed msgs i ob,
      storeWF s →
      handleRejectedEntries s es = some (s2, completed, msgs) →
      lookupKey s i = some ob →
      ((ob.status ≠ ObjectiveStatus.Rejected → i ∈ es →
        lookupKey s2 i = some { ob with status := ObjectiveStatus.Rejected } ∧
        completed.count { ob with status := ObjectiveStatus.Rejected } = 1) ∧
       (ob.status = ObjectiveStatus.Rejected →
        lookupKey s2 i = some ob ∧ completed.count ob = 0)) := by
  induction es with
  | nil =>
    intro s s2 completed msgs i ob hwf hrun hlk
    rw [handleRejectedEntries] at hrun
    rw [Option.some.injEq, Prod.mk.injEq, Prod.mk.injEq] at hrun
    obtain ⟨hs, hcomp, hmsg⟩ := hrun
    subst hs
    subst hcomp
    exact ⟨fun _ hmem => absurd hmem (List.not_mem_nil _),
           fun _ => ⟨hlk, by simp⟩⟩
  | cons e rest ih =>
    intro s s2 completed msgs i ob hwf hrun hlk
    rw [handleRejectedEntries] at hrun
    cases hle : lookupKey s e with
    | none => rw [hle] at hrun; exact Option.noConfusion hrun
    | some obE =>
      rw [hle] at hrun
      dsimp only at hrun
      by_cases hst : obE.status = ObjectiveStatus.Rejected
      · rw [if_pos hst] at hrun
        have IH := ih s s2 completed msgs i ob hwf hrun hlk
        refine ⟨?_, IH.2⟩
        intro hne hmem
        rcases List.mem_cons.mp hmem with hie | hmem2
        · subst hie
          rw [hlk] at hle
          injection hle with hle
          subst hle
          exact absurd hst hne
        · exact IH.1 hne hmem2
      · rw [if_neg hst] at hrun
        cases hrec : handleRejectedEntries
            (upsertKey s (rejectObjective obE).1.id (rejectObjective obE).1) rest with
        | none => rw [hrec] at hrun; exact Option.noConfusion hrun
        | some trip =>
          obtain ⟨s3, completed3, msgs3⟩ := trip
          rw [hrec] at hrun
          dsimp only at hrun
          rw [Option.some.injEq, Prod.mk.injEq, Prod.mk.injEq] at hrun
          obtain ⟨hs, hcomp, hmsg⟩ := hrun
          subst hs
          subst hcomp
          subst hmsg
          have hobEid : obE.id = e := hwf e obE hle
          have hwf2 : storeWF (upsertKey s (rejectObjective obE).1.id (rejectObjective obE).1) :=
            storeWF_upsert s _ hwf
          by_cases hie : i = e
          · subst hie
            rw [hlk] at hle
            injection hle with hle
            subst hle
            have hlk2 : lookupKey
                (upsertKey s (rejectObjective ob).1.id (rejectObjective ob).1) i =
                some (rejectObjective ob).1 := by
              have hid : (rejectObjective ob).1.id = i := hwf i ob hlk
              rw [hid]
              exact lookupKey_upsert_self _ _ _
            have IH := ih _ s3 completed3 msgs3 i (rejectObjective ob).1 hwf2 hrec hlk2
            have hB := IH.2 rfl
            constructor
            · intro hne hmem
              refine ⟨hB.1, ?_⟩
              rw [List.count_cons]
              simp [rejectObjective] at hB ⊢
              exact hB.2
            · intro hrej
              exact absurd hrej hst
          · have hlk2 : lookupKey
                (upsertKey s (rejectObjective obE).1.id (rejectObjective obE).1) i =
                some ob := by
              have hid : (rejectObjective obE).1.id = obE.id := rfl
              rw [hid, hobEid]
              rw [lookupKey_upsert_ne _ _ _ _ hie]
              exact hlk
            have IH := ih _ s3 completed3 msgs3 i ob hwf2 hrec hlk2
            have hobid : ob.id = i := hwf i ob hlk
            have hhead : (rejectObjective obE).1 ≠ { ob with status := ObjectiveStatus.Rejected } := by
              intro hcontra
              have hids : (rejectObjective obE).1.id = ob.id := by rw [hcontra]
              rw [show (rejectObjective obE).1.id = obE.id from rfl, hobEid, hobid] at hids
              exact hie hids.symm
            have hheadB : (rejectObjective obE).1 ≠ ob := by
              intro hcontra
              have hids : (rejectObjective obE).1.id = ob.id := by rw [hcontra]
              rw [show (rejectObjective obE).1.id = obE.id from rfl, hobEid, hobid] at hids
              exact hie hids.symm
            constructor
            · intro hne hmem
              rcases List.mem_cons.mp hmem with hie2 | hmem2
              · exact absurd hie2 hie
              · have hA := IH.1 hne hmem2
                refine ⟨hA.1, ?_⟩
                rw [List.count_cons, hA.2]
                simp [hhead]
            · intro hrej
              have hB := IH.2 hrej
              refine ⟨hB.1, ?_⟩
              rw [List.count_cons, hB.2]
              simp [hheadB]

/-- C7: when the engine handles inbound RejectedObjectives entries and one
of them names a stored objective whose status is not already Rejected, the
handler stores that objective with status Rejected, reports it exactly once
in the completed objectives of the returned engine event, and sends no
outbound message: the side effects of Reject are discarded. -/
theorem engine_handle_rejected_objectives (s s2 : List (Nat × GenObjective))
    (es : List Nat) (completed : List GenObjective) (msgs : List Message)
    (i : Nat) (ob : GenObjective)
    (hwf : storeWF s)
    (hrun : handleRejectedEntries s es = some (s2, completed, msgs))
    (hlk : lookupKey s i = some ob)
    (hst : ob.status ≠ ObjectiveStatus.Rejected)
    (hmem : i ∈ es) :
    lookupKey s2 i = some { ob with status := ObjectiveStatus.Rejected } ∧
      completed.count { ob with status := ObjectiveStatus.Rejected } = 1 ∧
      msgs = [] :=
  ⟨((handleRejected_invariant es s s2 completed msgs i ob hwf hrun hlk).1 hst hmem).1,
   ((handleRejected_invariant es s s2 completed msgs i ob hwf hrun hlk).1 hst hmem).2,
   handleRejected_no_messages es s s2 completed msgs hrun⟩

/-- A store with one approved objective, id 5, shared with two peers. -/
def c7Store : List (Nat × GenObjective) :=
  [(5, { id := 5, status := ObjectiveStatus.Approved, counterparties := [20, 30] })]

theorem engine_handle_rejected_objectives_witness :
    lookupKey
        (upsertKey c7Store 5
          { id := 5, status := ObjectiveStatus.Rejected, counterparties := [20, 30] }) 5 =
      some { id := 5, status := ObjectiveStatus.Rejected, counterparties := [20, 30] } ∧
      ([({ id := 5, status := ObjectiveStatus.Rejected,
           counterparties := [20, 30] } : GenObjective)]).count
          { id := 5, status := ObjectiveStatus.Rejected, counterparties := [20, 30] } = 1 ∧
      ([] : List Message) = [] :=
  engine_handle_rejected_objectives c7Store _ [5] _ []
    5 { id := 5, status := ObjectiveStatus.Approved, counterparties := [20, 30] }
    (by intro k ob h; revert h; simp [c7Store, lookupKey]; intro h1 h2; rw [← h2, ← h1])
    rfl rfl (by decide) (by decide)
